import Mathlib

/-!
A verification development for the CLI-driven node-interaction layer of the
`integration_tests` package (file `integration_tests/utils.py`): the argument
builder (`safe_cli_string`, `build_cli_args_safe`), the process executor
(`interact`), the command driver (`Command` and its subcommand-default logic),
the polling primitives (`wait_for_port`, `wait_for_new_blocks`,
`wait_for_block_time`, `wait_for_block`), the response decoder (`Response`,
`parse_events`) and the high-level operations (`store`, `instantiate`,
`construct`, `execute`, `query`, `address`, `balances`).

Python values that flow into the builder are modelled by `PyVal` (strings,
integers and `None`); Python dicts keyed by strings are modelled as ordered
association lists with Python's insertion semantics; child-process execution,
`json.loads` and `dateutil.isoparse` are oracles supplied as parameters, so
every definition below is executable.
-/

namespace CosmwasmTests

/-- A Python value as used by the CLI argument builder: a string, an integer
or `None`.  (These are the only value shapes the driver ever passes.) -/
inductive PyVal where
  | vStr (s : String)
  | vInt (n : Int)
  | vNone
  deriving DecidableEq, Repr

/-- Python `str()` on a `PyVal`. -/
def pyStr : PyVal → String
  | .vStr s => s
  | .vInt n => toString n
  | .vNone => "None"

/-- Python truthiness on a `PyVal` (`if arg:`): `None` is falsy, `0` is
falsy, the empty string is falsy, everything else is truthy. -/
def pyTruthy : PyVal → Bool
  | .vStr s => !s.isEmpty
  | .vInt n => n != 0
  | .vNone => false

/-- Python `str.isspace`-style whitespace for ASCII, the separator set of
`str.split()` with no arguments. -/
def pyIsSpace (c : Char) : Bool :=
  c = ' ' || c = '\t' || c = '\n' || c = '\x0d' || c = '\x0b' || c = '\x0c'

/-- `pyWordsAux cs acc` accumulates the current partial word `acc` (reversed)
while scanning `cs`; it returns the list of maximal non-whitespace runs.
This is Python `str.split()` (no separator argument) on a character list:
empty strings never appear in the result. -/
def pyWordsAux : List Char → List Char → List (List Char)
  | [], acc => if acc.isEmpty then [] else [acc.reverse]
  | c :: cs, acc =>
    if pyIsSpace c then
      if acc.isEmpty then pyWordsAux cs [] else acc.reverse :: pyWordsAux cs []
    else
      pyWordsAux cs (c :: acc)

/-- Python `s.split()`: the maximal whitespace-free runs of `s`. -/
def pyWords (s : String) : List (List Char) :=
  pyWordsAux s.toList []

/-- The single-quote character `'`, used by `safe_cli_string` for quoting. -/
def squote : String :=
  String.singleton (Char.ofNat 39)

/-- `safe_cli_string` from `utils.py`: convert the value to its string form;
if that string splits into more than one whitespace-delimited word
(`len(s.split()) > 1`), wrap it in single quotes, otherwise return it
unchanged. -/
def safe_cli_string (v : PyVal) : String :=
  let s := pyStr v
  if 1 < (pyWords s).length then squote ++ s ++ squote else s

/-- Python `s.strip("_")` on a character list: drop the character from both
ends. -/
def pyStrip (cs : List Char) (c : Char) : List Char :=
  ((cs.dropWhile (· = c)).reverse.dropWhile (· = c)).reverse

/-- The flag token derived from a keyword name in `build_cli_args_safe`:
`"--" + k.strip("_").replace("_", "-")` — strip leading and trailing
underscores, replace the remaining underscores with hyphens (the pattern is
a single character, so the replacement is character-wise), prefix `--`. -/
def flagToken (k : String) : String :=
  "--" ++ String.mk ((pyStrip k.toList '_').map (fun ch => if ch = '_' then '-' else ch))

/-- The keyword-argument portion of `build_cli_args_safe`: each pair with a
`None` value is skipped; every other pair contributes the flag token followed
by the safe-quoted value, in the order the pairs appear. -/
def kwTokens : List (String × PyVal) → List String
  | [] => []
  | (_, .vNone) :: rest => kwTokens rest
  | (k, v) :: rest => flagToken k :: safe_cli_string v :: kwTokens rest

/-- The positional portion of `build_cli_args_safe`:
`[safe_cli_string(arg) for arg in args if arg]`. -/
def posTokens (args : List PyVal) : List String :=
  (args.filter pyTruthy).map safe_cli_string

/-- `build_cli_args_safe` from `utils.py`: truthy positionals (safe-quoted)
first, then for each keyword argument whose value is not `None` the flag
token and the safe-quoted value.  (The final `list(map(str, args))` of the
source is the identity here since every token is already a string.) -/
def build_cli_args_safe (args : List PyVal) (kwargs : List (String × PyVal)) : List String :=
  posTokens args ++ kwTokens kwargs

/-! ### Python dicts with string keys

Ordered association lists with Python `dict` semantics: `setdefault` keeps an
existing entry and otherwise appends, insertion overwrites the value in place
(keeping the first-insertion position) or appends. -/

/-- `k in d` on a Python dict. -/
def hasKey {α : Type} (d : List (String × α)) (k : String) : Bool :=
  d.any (fun p => p.1 = k)

/-- `d[k]` on a Python dict, as an `Option`. -/
def lookupKW {α : Type} (d : List (String × α)) (k : String) : Option α :=
  (d.find? (fun p => p.1 = k)).map (fun p => p.2)

/-- `d.setdefault(k, v)`: keep the dict unchanged when `k` is present,
otherwise append the new entry. -/
def setdefault {α : Type} (d : List (String × α)) (k : String) (v : α) : List (String × α) :=
  if hasKey d k then d else d ++ [(k, v)]

/-- `d[k] = v`: overwrite the value of an existing entry in place, otherwise
append the new entry. -/
def dictInsert {α : Type} (d : List (String × α)) (k : String) (v : α) : List (String × α) :=
  if hasKey d k then d.map (fun p => if p.1 = k then (k, v) else p) else d ++ [(k, v)]

/-- A dict comprehension `{k: v for (k, v) in kvs}`: successive insertion, so
a duplicate key overwrites (last one wins). -/
def dictOfPairs {α : Type} (kvs : List (String × α)) : List (String × α) :=
  kvs.foldl (fun d kv => dictInsert d kv.1 kv.2) []

/-! ### JSON values (the result of `json.loads`) -/

/-- A parsed JSON value.  Numbers are modelled as integers (the node's result
and status payloads only carry integral numbers and numeric strings). -/
inductive Json where
  | null
  | bool (b : Bool)
  | num (n : Int)
  | str (s : String)
  | arr (elems : List Json)
  | obj (fields : List (String × Json))
  deriving Repr

def Json.asStr? : Json → Option String
  | .str s => some s
  | _ => none

def Json.asArr? : Json → Option (List Json)
  | .arr l => some l
  | _ => none

def Json.asObj? : Json → Option (List (String × Json))
  | .obj l => some l
  | _ => none

/-- `j[i]` on a JSON array (Python raises otherwise, modelled as `none`). -/
def Json.index? : Json → Nat → Option Json
  | .arr l, i => l.get? i
  | _, _ => none

/-- `j[k]` on a JSON object (Python raises otherwise, modelled as `none`). -/
def Json.field? (j : Json) (k : String) : Option Json :=
  j.asObj?.bind fun l => lookupKW l k

/-- Python `x == 0` on a JSON value (`False == 0` holds in Python). -/
def Json.eqZero : Json → Bool
  | .num n => n = 0
  | .bool b => !b
  | _ => false

/-- Python `int(x)` on a JSON value, as an `Option` (raises on failure). -/
def pyInt? : Json → Option Int
  | .num n => some n
  | .bool b => some (if b then 1 else 0)
  | .str s => s.toInt?
  | _ => none

/-! ### Process executor (`interact`) -/

/-- The outcome of one child process: its combined stdout/stderr text and
its exit status. -/
structure ExecResult where
  stdout : String
  returncode : Int
  deriving Repr

/-- `interact` from `utils.py`, given the spawned process's outcome: unless
`ignore_error` is set, a nonzero exit status fails the assertion
`assert proc.returncode == 0, f'{stdout.decode("utf-8")} ({cmd})'`, whose
message is the captured output followed by the command line in parentheses;
otherwise the captured output is returned. -/
def interact (cmd : String) (ignore_error : Bool) (res : ExecResult) : Except String String :=
  if !ignore_error && res.returncode != 0 then
    .error (res.stdout ++ " (" ++ cmd ++ ")")
  else
    .ok res.stdout

/-! ### Response decoder (`Response`, `parse_events`) -/

/-- A decoded transaction-result JSON object (`Response` in `utils.py` is a
`dict` subclass; its underlying dict is the object's fields). -/
structure Response where
  fields : List (String × Json)

/-- `rsp[k]` / `rsp.get(k)`. -/
def Response.get? (r : Response) (k : String) : Option Json :=
  lookupKW r.fields k

/-- `Response.code`: `self.get("code", 0)` — the `code` field, defaulting to
the number `0` when absent. -/
def Response.code (r : Response) : Json :=
  (r.get? "code").getD (.num 0)

/-- One attribute's `(attr["key"], attr["value"])` pair.  Attribute keys and
values are strings (the shape the node emits); a missing or non-string field
is a raised exception, modelled as `none`. -/
def attrKV (a : Json) : Option (String × String) := do
  let k ← (a.field? "key").bind Json.asStr?
  let v ← (a.field? "value").bind Json.asStr?
  pure (k, v)

/-- One event's attribute list turned into a flat dict:
`{attr["key"]: attr["value"] for attr in evt["attributes"]}`. -/
def eventDict (ev : Json) : Option (List (String × String)) := do
  let attrs ← (ev.field? "attributes").bind Json.asArr?
  let kvs ← attrs.mapM attrKV
  pure (dictOfPairs kvs)

/-- The body of `parse_events` after `json.loads`: take element `0` of the
log array, its `events` array, and flatten each event's attributes into a
dict. -/
def parseEventsLog (log : Json) : Option (List (List (String × String))) := do
  let m0 ← log.index? 0
  let evs ← (m0.field? "events").bind Json.asArr?
  evs.mapM eventDict

/-- `parse_events(rsp)` from `utils.py`: parse `rsp["raw_log"]` as JSON
(`jloads` is the `json.loads` oracle) and decode the first message's
events. -/
def parse_events (jloads : String → Option Json) (rsp : Response) : Option (List (List (String × String))) := do
  let rl ← rsp.get? "raw_log"
  let s ← rl.asStr?
  let j ← jloads s
  parseEventsLog j

/-- `Response.events`: property delegating to `parse_events`. -/
def Response.events (jloads : String → Option Json) (r : Response) : Option (List (List (String × String))) :=
  parse_events jloads r

/-! ### Command driver -/

/-- The driver's identity, fixed at construction: binary path, home
directory, node RPC address and chain id. -/
structure Command where
  cmd : String
  home : String
  node : String
  chain_id : String
  deriving DecidableEq, Repr

/-- The environment a driver invocation runs in: the child-process oracle
(`exec cmdline stdin` is the spawned process's outcome) and the `json.loads`
oracle. -/
structure Env where
  exec : String → Option String → ExecResult
  jloads : String → Option Json

/-- The keyword-argument defaulting of `Command.__call__`: every subcommand
defaults `home`; `tx`, `status` and `query` default `node`; `tx` additionally
defaults `chain_id`; `tx` and `keys` default `keyring_backend` to `test`;
`query` defaults `output` to `json`.  `setdefault` never overwrites a
caller-supplied entry. -/
def Command.call_kwargs (c : Command) (cmd : String) (kw : List (String × PyVal)) : List (String × PyVal) :=
  let kw := setdefault kw "home" (.vStr c.home)
  let kw := if cmd = "tx" || cmd = "status" || cmd = "query" then setdefault kw "node" (.vStr c.node) else kw
  let kw := if cmd = "tx" then setdefault kw "chain_id" (.vStr c.chain_id) else kw
  let kw := if cmd = "tx" || cmd = "keys" then setdefault kw "keyring_backend" (.vStr "test") else kw
  let kw := if cmd = "query" then setdefault kw "output" (.vStr "json") else kw
  kw

/-- The token list built by `Command.__call__`:
`build_cli_args_safe(cmd, *args, **kwargs)` after defaulting. -/
def Command.callTokens (c : Command) (cmd : String) (args : List PyVal) (kwargs : List (String × PyVal)) : List String :=
  build_cli_args_safe (.vStr cmd :: args) (c.call_kwargs cmd kwargs)

/-- The full command line `f"{self.cmd} {args}"` with the tokens joined by
single spaces. -/
def Command.cmdline (c : Command) (cmd : String) (args : List PyVal) (kwargs : List (String × PyVal)) : String :=
  c.cmd ++ " " ++ String.intercalate " " (c.callTokens cmd args kwargs)

/-- `Command.__call__`: build the command line, run it through `interact`
(with `ignore_error` at its default `False`), and return the captured output.
The driver itself is threaded through explicitly; the method assigns no
attribute, so it comes back as it went in. -/
def Command.call (c : Command) (env : Env) (cmd : String) (args : List PyVal) (stdin : Option String) (kwargs : List (String × PyVal)) : Except String String × Command :=
  (interact (c.cmdline cmd args kwargs) false (env.exec (c.cmdline cmd args kwargs) stdin), c)

/-- `Command.status`: `json.loads(self("status"))`.  A process failure or a
JSON parse failure is a raised exception, modelled as `none`. -/
def Command.status (c : Command) (env : Env) : Option Json × Command :=
  (match (c.call env "status" [] none []).1 with
   | .ok out => env.jloads out
   | .error _ => none, c)

/-- `Command.address`: `self("keys", "show", name, "-a").strip().decode()`. -/
def Command.address (c : Command) (env : Env) (name : String) : Except String String × Command :=
  ((c.call env "keys" [.vStr "show", .vStr name, .vStr "-a"] none []).1.map (fun out => out.trim), c)

/-- `Command.balances`: query the bank balances of an address and reshape
them into a dict from denom to integer amount. -/
def Command.balances (c : Command) (env : Env) (address : String) : Option (List (String × Int)) × Command :=
  ((do
    let out ← (c.call env "query" [.vStr "bank", .vStr "balances", .vStr address] none []).1.toOption
    let j ← env.jloads out
    let bals ← (j.field? "balances").bind Json.asArr?
    let kvs ← bals.mapM fun b => do
      let denom ← (b.field? "denom").bind Json.asStr?
      let amount ← (b.field? "amount").bind pyInt?
      pure (denom, amount)
    pure (dictOfPairs kvs)), c)

/-- The keyword arguments `Command.store` passes to `__call__`: the sender
and the literal gas amount `2000000` (the method's `gas` parameter is not
what is passed — the source repeats the literal). -/
def storeKwargs (from_ : String) : List (String × PyVal) :=
  [("from_", .vStr from_), ("gas", .vInt 2000000)]

/-- The token list of the CLI invocation made by `Command.store`. -/
def Command.storeTokens (c : Command) (path from_ : String) : List String :=
  c.callTokens "tx" [.vStr "wasm", .vStr "store", .vStr path, .vStr "-y"] (storeKwargs from_)

/-- `Command.store`: submit a wasm-store transaction, require result code 0,
and return `int(rsp.events[0]["code_id"])`.  The unused `gas` parameter
mirrors the source signature `def store(self, path, from_, gas=2000000)`;
the call site always passes the literal `2000000`. -/
def Command.store (c : Command) (env : Env) (path from_ : String) (gas : Int) : Option Int × Command :=
  ((do
    let out ← (c.call env "tx" [.vStr "wasm", .vStr "store", .vStr path, .vStr "-y"] none (storeKwargs from_)).1.toOption
    let j ← env.jloads out
    let fields ← j.asObj?
    let rsp : Response := ⟨fields⟩
    if rsp.code.eqZero then do
      let evs ← rsp.events env.jloads
      let e0 ← evs.get? 0
      let v ← lookupKW e0 "code_id"
      v.toInt?
    else none), c)

/-- The keyword arguments `Command.instantiate` passes to `__call__`
(`admin=admin or from_` follows Python truthiness: a `None` or empty admin
falls back to the sender). -/
def instantiateKwargs (from_ label : String) (admin : Option String) : List (String × PyVal) :=
  [("label", .vStr label),
   ("admin", .vStr (match admin with
     | some a => if a.isEmpty then from_ else a
     | none => from_)),
   ("from_", .vStr from_)]

/-- `Command.instantiate`: submit a wasm-instantiate transaction, require
result code 0, and return `rsp.events[0]["contract_address"]`.  `initMsg` is
the already-serialized message (`json.dumps(init_msg)`). -/
def Command.instantiate (c : Command) (env : Env) (code_id : Int) (initMsg from_ label : String) (admin : Option String) : Option String × Command :=
  ((do
    let out ← (c.call env "tx" [.vStr "wasm", .vStr "instantiate", .vInt code_id, .vStr initMsg, .vStr "-y"] none (instantiateKwargs from_ label admin)).1.toOption
    let j ← env.jloads out
    let fields ← j.asObj?
    let rsp : Response := ⟨fields⟩
    if rsp.code.eqZero then do
      let evs ← rsp.events env.jloads
      let e0 ← evs.get? 0
      lookupKW e0 "contract_address"
    else none), c)

/-- `Command.construct`: `store` followed by `instantiate` on the returned
code id (with `store`'s default gas literal). -/
def Command.construct (c : Command) (env : Env) (path initMsg from_ label : String) (admin : Option String) : Option String × Command :=
  ((do
    let code_id ← (c.store env path from_ 2000000).1
    (c.instantiate env code_id initMsg from_ label admin).1), c)

/-- The keyword arguments `Command.execute` passes to `__call__`: the sender
and `amount=f"{amount}ucosm"` — the amount's decimal form with the fixed
`ucosm` denomination appended. -/
def executeKwargs (from_ : String) (amount : Int) : List (String × PyVal) :=
  [("from_", .vStr from_), ("amount", .vStr (toString amount ++ "ucosm"))]

/-- The token list of the CLI invocation made by `Command.execute`. -/
def Command.executeTokens (c : Command) (contract msg from_ : String) (amount : Int) : List String :=
  c.callTokens "tx" [.vStr "wasm", .vStr "execute", .vStr contract, .vStr msg, .vStr "-y"] (executeKwargs from_ amount)

/-- `Command.execute`: submit a wasm-execute transaction with an attached
amount, require result code 0, and return the decoded event list.  `msg` is
the already-serialized message (`json.dumps(msg)`). -/
def Command.execute (c : Command) (env : Env) (contract msg from_ : String) (amount : Int) : Option (List (List (String × String))) × Command :=
  ((do
    let out ← (c.call env "tx" [.vStr "wasm", .vStr "execute", .vStr contract, .vStr msg, .vStr "-y"] none (executeKwargs from_ amount)).1.toOption
    let j ← env.jloads out
    let fields ← j.asObj?
    let rsp : Response := ⟨fields⟩
    if rsp.code.eqZero then rsp.events env.jloads else none), c)

/-- `Command.query`: run a read-only smart query and unwrap the `data`
envelope field of the JSON response. -/
def Command.query (c : Command) (env : Env) (contract msg : String) : Option Json × Command :=
  ((do
    let out ← (c.call env "query" [.vStr "wasm", .vStr "contract-state", .vStr "smart", .vStr contract, .vStr msg] none []).1.toOption
    let j ← env.jloads out
    j.field? "data"), c)

/-! ### Polling primitives

The repeated `self.status()` polls are abstracted by oracles: `heights i`
(resp. `times i`) is the parsed `latest_block_height` (resp. the `isoparse`d
`latest_block_time`, placed on a linear integer timeline) returned by the
`i`-th status call of the loop.  Loops that the source runs unboundedly are
given fuel (a number of iterations to unroll); `none` means the loop was
still running after that many polls — the source has no other way out than
its stated condition. -/

/-- The loop of `Command.wait_for_block`: up to `timeout` iterations, return
the index of the first poll whose height reaches `n`; exhausting the range
raises `TimeoutError(f"wait for block {n}")`. -/
def waitForBlockLoop (heights : Nat → Int) (n : Int) (i : Nat) : Nat → Except String Nat
  | 0 => .error ("wait for block " ++ toString n)
  | fuel + 1 =>
    if heights i ≥ n then .ok i else waitForBlockLoop heights n (i + 1) fuel

/-- `Command.wait_for_block`: poll once per iteration, at most `timeout`
times. -/
def Command.wait_for_block (c : Command) (heights : Nat → Int) (n : Int) (timeout : Nat) : Except String Nat × Command :=
  (waitForBlockLoop heights n 0 timeout, c)

/-- The `while True` loop of `Command.wait_for_new_blocks`: starting from
poll `i`, return the index of the first poll whose height exceeds
`begin_height` by at least `n`.  There is no timeout branch. -/
def waitNewBlocksLoop (heights : Nat → Int) (begin_height n : Int) (i : Nat) : Nat → Option Nat
  | 0 => none
  | fuel + 1 =>
    if heights i - begin_height ≥ n then some i
    else waitNewBlocksLoop heights begin_height n (i + 1) fuel

/-- `Command.wait_for_new_blocks`: record the height of poll `0` as the
starting height, then loop (sleeping first, so checks start at poll `1`)
until the height has advanced by at least `n`. -/
def Command.wait_for_new_blocks (c : Command) (heights : Nat → Int) (n : Int) (fuel : Nat) : Option Nat × Command :=
  (waitNewBlocksLoop heights (heights 0) n 1 fuel, c)

/-- The `while True` loop of `Command.wait_for_block_time`: return the index
of the first poll whose block time reaches `t` (the check precedes the
sleep, so poll `0` is checked first).  There is no timeout branch. -/
def waitBlockTimeLoop (times : Nat → Int) (t : Int) (i : Nat) : Nat → Option Nat
  | 0 => none
  | fuel + 1 =>
    if times i ≥ t then some i else waitBlockTimeLoop times t (i + 1) fuel

/-- `Command.wait_for_block_time`. -/
def Command.wait_for_block_time (c : Command) (times : Nat → Int) (t : Int) (fuel : Nat) : Option Nat × Command :=
  (waitBlockTimeLoop times t 0 fuel, c)

/-- The `TimeoutError` message of `wait_for_port` (the source's two adjacent
string literals concatenate to this text, with the port and host formatted
in). -/
def portTimeoutMsg (port : Nat) (host : String) : String :=
  "Waited too long for the port " ++ toString port ++ " on host " ++ host ++
    " to start accepting connections."

/-- The loop of `wait_for_port` on an explicit timeline.  Time is measured
in tenths of a second (the source's `time.sleep(0.1)` granularity): the
sleep after a failed attempt advances the clock by `1`.  `connect i` tells
whether the `i`-th connection attempt succeeds and `dur i` how long it
takes; a failed attempt is followed by the sleep and then the elapsed-time
check (`time.perf_counter() - start_time >= timeout`), so the clock after
the `i`-th failure is `elapsed + dur i + 1`.  A success returns at clock
`elapsed + dur i`; once the clock reaches `timeout` the `TimeoutError` is
raised, carried here together with the clock value at the raise. -/
def waitForPortLoop (port : Nat) (host : String) (connect : Nat → Bool) (dur : Nat → Int) (timeout : Int) (i : Nat) (elapsed : Int) : Nat → Option (Except (String × Int) Int)
  | 0 => none
  | fuel + 1 =>
    if connect i then some (.ok (elapsed + dur i))
    else
      let e := elapsed + dur i + 1
      if e ≥ timeout then some (.error (portTimeoutMsg port host, e))
      else waitForPortLoop port host connect dur timeout (i + 1) e fuel

/-- `wait_for_port` from `utils.py`: attempts start at index `0` with the
clock at `0`. -/
def wait_for_port (port : Nat) (host : String) (connect : Nat → Bool) (dur : Nat → Int) (timeout : Int) (fuel : Nat) : Option (Except (String × Int) Int) :=
  waitForPortLoop port host connect dur timeout 0 0 fuel

/-! ## Characterisation of `str.split()` word counts

`safe_cli_string` quotes exactly when `len(s.split()) > 1`.  The lemmas
below characterise that condition structurally: the string has a whitespace
character with some non-whitespace character before it and some
non-whitespace character after it. -/

/-- The character list has a whitespace character that separates two
non-whitespace characters (not necessarily adjacent). -/
def multiword (cs : List Char) : Prop :=
  ∃ l1 w l2, cs = l1 ++ w :: l2 ∧ pyIsSpace w = true ∧
    (∃ a ∈ l1, pyIsSpace a = false) ∧ (∃ b ∈ l2, pyIsSpace b = false)

theorem pyWordsAux_eq_nil (cs : List Char) (acc : List Char) :
    pyWordsAux cs acc = [] ↔ acc = [] ∧ cs.all pyIsSpace = true := by
  induction cs generalizing acc with
  | nil =>
    by_cases h : acc.isEmpty <;>
      simp_all [pyWordsAux, List.isEmpty_iff]
  | cons c cs ih =>
    by_cases hc : pyIsSpace c
    · by_cases h : acc.isEmpty <;>
        simp_all [pyWordsAux, List.isEmpty_iff, ih]
    · have : (c :: acc).isEmpty = false := rfl
      simp_all [pyWordsAux, ih]

theorem one_lt_pyWordsAux_len (cs : List Char) (acc : List Char) (hacc : acc ≠ []) :
    1 < (pyWordsAux cs acc).length ↔
      ∃ l1 w l2, cs = l1 ++ w :: l2 ∧ pyIsSpace w = true ∧ ∃ b ∈ l2, pyIsSpace b = false := by
  induction cs generalizing acc with
  | nil =>
    have h : acc.isEmpty = false := by simpa [List.isEmpty_iff] using hacc
    simp [pyWordsAux, h]
  | cons c cs ih =>
    have h : acc.isEmpty = false := by simpa [List.isEmpty_iff] using hacc
    by_cases hc : pyIsSpace c
    · simp only [pyWordsAux, hc, if_true, h, Bool.false_eq_true, if_false,
        List.length_cons]
      constructor
      · intro hlen
        have hne : pyWordsAux cs [] ≠ [] := by
          intro hnil
          rw [hnil] at hlen
          simp at hlen
        have hex : ∃ b ∈ cs, pyIsSpace b = false := by
          by_contra hall
          push_neg at hall
          apply hne
          rw [pyWordsAux_eq_nil]
          refine ⟨rfl, ?_⟩
          rw [List.all_eq_true]
          intro x hx
          simpa using hall x hx
        obtain ⟨b, hb, hbs⟩ := hex
        exact ⟨[], c, cs, rfl, hc, b, hb, hbs⟩
      · rintro ⟨l1, w, l2, heq, hw, b, hb, hbs⟩
        have hbcs : b ∈ cs := by
          rcases l1 with _ | ⟨x, l1⟩
          · simp only [List.nil_append, List.cons.injEq] at heq
            rw [heq.2]; exact hb
          · simp only [List.cons_append, List.cons.injEq] at heq
            rw [heq.2]
            exact List.mem_append_right _ (List.mem_cons_of_mem _ hb)
        have hne : pyWordsAux cs [] ≠ [] := by
          intro hnil
          obtain ⟨-, hall⟩ := (pyWordsAux_eq_nil cs []).mp hnil
          rw [List.all_eq_true] at hall
          exact absurd (hall b hbcs) (by simp [hbs])
        have : 0 < (pyWordsAux cs []).length := List.length_pos.mpr hne
        omega
    · simp only [pyWordsAux, hc, Bool.false_eq_true, if_false]
      rw [ih (c :: acc) (by simp)]
      constructor
      · rintro ⟨l1, w, l2, heq, hw, b, hb, hbs⟩
        exact ⟨c :: l1, w, l2, by rw [heq]; rfl, hw, b, hb, hbs⟩
      · rintro ⟨l1, w, l2, heq, hw, b, hb, hbs⟩
        rcases l1 with _ | ⟨x, l1⟩
        · simp only [List.nil_append, List.cons.injEq] at heq
          exact absurd (heq.1 ▸ hw) (by simp [hc])
        · simp only [List.cons_append, List.cons.injEq] at heq
          exact ⟨l1, w, l2, heq.2, hw, b, hb, hbs⟩

theorem one_lt_pyWords_len (cs : List Char) :
    1 < (pyWordsAux cs []).length ↔ multiword cs := by
  induction cs with
  | nil => simp [pyWordsAux, multiword]
  | cons c cs ih =>
    by_cases hc : pyIsSpace c
    · simp only [pyWordsAux, hc, if_true, List.isEmpty_nil]
      rw [ih]
      constructor
      · rintro ⟨l1, w, l2, heq, hw, ⟨a, ha, has⟩, ⟨b, hb, hbs⟩⟩
        exact ⟨c :: l1, w, l2, by rw [heq]; rfl, hw, ⟨a, List.mem_cons_of_mem _ ha, has⟩,
          ⟨b, hb, hbs⟩⟩
      · rintro ⟨l1, w, l2, heq, hw, ⟨a, ha, has⟩, ⟨b, hb, hbs⟩⟩
        rcases l1 with _ | ⟨x, l1⟩
        · simp only [List.nil_append, List.cons.injEq] at heq
          simp at ha
        · simp only [List.cons_append, List.cons.injEq] at heq
          rcases List.mem_cons.mp ha with ha1 | ha1
          · exact absurd (heq.1 ▸ ha1 ▸ has) (by simp [hc])
          · exact ⟨l1, w, l2, heq.2, hw, ⟨a, ha1, has⟩, ⟨b, hb, hbs⟩⟩
    · have : ([] : List Char).isEmpty = true := rfl
      simp only [pyWordsAux, hc, Bool.false_eq_true, if_false]
      rw [one_lt_pyWordsAux_len cs [c] (by simp)]
      constructor
      · rintro ⟨l1, w, l2, heq, hw, b, hb, hbs⟩
        exact ⟨c :: l1, w, l2, by rw [heq]; rfl, hw, ⟨c, List.mem_cons_self c l1, by simpa using hc⟩,
          ⟨b, hb, hbs⟩⟩
      · rintro ⟨l1, w, l2, heq, hw, _, b, hb, hbs⟩
        rcases l1 with _ | ⟨x, l1⟩
        · simp only [List.nil_append, List.cons.injEq] at heq
          exact absurd (heq.1 ▸ hw) (by simp [hc])
        · simp only [List.cons_append, List.cons.injEq] at heq
          exact ⟨l1, w, l2, heq.2, hw, b, hb, hbs⟩

theorem safe_cli_string_of_multiword (v : PyVal) (h : multiword (pyStr v).toList) :
    safe_cli_string v = squote ++ pyStr v ++ squote := by
  rw [safe_cli_string]
  simp only [pyWords]
  rw [if_pos ((one_lt_pyWords_len _).mpr h)]

theorem safe_cli_string_of_not_multiword (v : PyVal) (h : ¬ multiword (pyStr v).toList) :
    safe_cli_string v = pyStr v := by
  rw [safe_cli_string]
  simp only [pyWords]
  rw [if_neg (fun hlt => h ((one_lt_pyWords_len _).mp hlt))]

/-! ## Dict lemmas -/

section DictLemmas

variable {α : Type}

theorem lookupKW_cons (p : String × α) (d : List (String × α)) (k : String) :
    lookupKW (p :: d) k = if p.1 = k then some p.2 else lookupKW d k := by
  by_cases h : p.1 = k <;> simp [lookupKW, List.find?, h]

theorem hasKey_cons (p : String × α) (d : List (String × α)) (k : String) :
    hasKey (p :: d) k = (decide (p.1 = k) || hasKey d k) := by
  simp [hasKey, List.any_cons]

theorem lookupKW_eq_none_of_hasKey_false (d : List (String × α)) (k : String)
    (h : hasKey d k = false) : lookupKW d k = none := by
  have hfind : List.find? (fun p => decide (p.1 = k)) d = none := by
    rw [List.find?_eq_none]
    intro p hp
    rw [hasKey, List.any_eq_false] at h
    simpa using h p hp
  simp [lookupKW, hfind]

theorem lookupKW_append (d1 d2 : List (String × α)) (k : String) :
    lookupKW (d1 ++ d2) k = (lookupKW d1 k).or (lookupKW d2 k) := by
  rw [lookupKW, List.find?_append]
  rcases h : List.find? (fun p => decide (p.1 = k)) d1 with _ | p <;> simp [lookupKW, h]

theorem lookupKW_singleton (k : String) (v : α) : lookupKW [(k, v)] k = some v := by
  simp [lookupKW, List.find?]

theorem lookupKW_setdefault_preserve (d : List (String × α)) (k k2 : String) (v : α)
    (v2 : α) (h : lookupKW d k = some v) : lookupKW (setdefault d k2 v2) k = some v := by
  rw [setdefault]
  by_cases hk : hasKey d k2 = true
  · rw [if_pos hk]; exact h
  · rw [if_neg hk, lookupKW_append, h]; rfl

theorem lookupKW_setdefault_default (d : List (String × α)) (k : String) (v : α)
    (h : hasKey d k = false) : lookupKW (setdefault d k v) k = some v := by
  rw [setdefault, if_neg (by simp [h]), lookupKW_append,
    lookupKW_eq_none_of_hasKey_false d k h, lookupKW_singleton]
  rfl

theorem lookupKW_setdefault_ne (d : List (String × α)) (k k2 : String) (v2 : α)
    (h : k ≠ k2) : lookupKW (setdefault d k2 v2) k = lookupKW d k := by
  rw [setdefault]
  by_cases hk : hasKey d k2 = true
  · rw [if_pos hk]
  · rw [if_neg hk, lookupKW_append]
    have h1 : lookupKW [(k2, v2)] k = none := by
      simp [lookupKW, List.find?, Ne.symm h]
    rw [h1]
    rcases hl : lookupKW d k with _ | v <;> rfl

theorem hasKey_setdefault_ne (d : List (String × α)) (k k2 : String) (v2 : α)
    (h : k ≠ k2) : hasKey (setdefault d k2 v2) k = hasKey d k := by
  rw [setdefault]
  by_cases hk : hasKey d k2 = true
  · rw [if_pos hk]
  · rw [if_neg hk, hasKey, List.any_append]
    have : hasKey [(k2, v2)] k = false := by simp [hasKey, Ne.symm h]
    rw [hasKey] at this ⊢
    rw [this, Bool.or_false]

theorem lookupKW_map_update (d : List (String × α)) (k k2 : String) (v : α) :
    lookupKW (d.map fun p => if p.1 = k2 then (k2, v) else p) k =
      if k = k2 then (if hasKey d k2 then some v else none) else lookupKW d k := by
  induction d with
  | nil => by_cases hk : k = k2 <;> simp [lookupKW, hasKey, hk]
  | cons p d ih =>
    simp only [List.map_cons]
    by_cases hp : p.1 = k2
    · rw [if_pos hp]
      by_cases hk : k = k2
      · subst hk
        simp [lookupKW_cons, hasKey_cons, hp]
      · have hpk : ¬ p.1 = k := fun h => hk (h.symm.trans hp)
        simp only [lookupKW_cons, ih, if_neg hk, if_neg hpk,
          if_neg (fun h : (k2, v).1 = k => hk h.symm)]
    · rw [if_neg hp]
      by_cases hpk : p.1 = k
      · have hk : ¬(k = k2) := fun h => hp (h ▸ hpk)
        rw [lookupKW_cons, if_pos hpk, if_neg hk, lookupKW_cons, if_pos hpk]
      · rw [lookupKW_cons, if_neg hpk, ih]
        by_cases hk : k = k2
        · rw [if_pos hk, if_pos hk]
          have : hasKey (p :: d) k2 = hasKey d k2 := by
            simp [hasKey_cons, hp]
          rw [this]
        · rw [if_neg hk, if_neg hk, lookupKW_cons, if_neg hpk]

theorem lookupKW_dictInsert (d : List (String × α)) (k k2 : String) (v : α) :
    lookupKW (dictInsert d k2 v) k = if k = k2 then some v else lookupKW d k := by
  rw [dictInsert]
  by_cases hk2 : hasKey d k2 = true
  · rw [if_pos hk2, lookupKW_map_update, hk2]
    by_cases hk : k = k2 <;> simp [hk]
  · rw [if_neg hk2, lookupKW_append]
    by_cases hk : k = k2
    · subst hk
      rw [lookupKW_eq_none_of_hasKey_false d k (by simpa using hk2), lookupKW_singleton]
      simp
    · have h1 : lookupKW [(k2, v)] k = none := by
        simp [lookupKW, List.find?, Ne.symm hk]
      rw [h1, if_neg hk]
      rcases hl : lookupKW d k with _ | w <;> rfl

theorem lookupKW_foldl_dictInsert (kvs : List (String × α)) (d : List (String × α)) (k : String) :
    lookupKW (kvs.foldl (fun d kv => dictInsert d kv.1 kv.2) d) k =
      ((kvs.reverse.find? (fun p => p.1 = k)).map (fun p => p.2)).or (lookupKW d k) := by
  induction kvs generalizing d with
  | nil => simp
  | cons kv kvs ih =>
    rw [List.foldl_cons, ih, List.reverse_cons, List.find?_append]
    by_cases hk : kv.1 = k
    · have h1 : List.find? (fun p => decide (p.1 = k)) [kv] = some kv := by
        simp [List.find?, hk]
      rcases hf : kvs.reverse.find? (fun p => decide (p.1 = k)) with _ | q
      · rw [hf, h1, lookupKW_dictInsert, if_pos hk.symm]
        simp
      · simp [hf]
    · have h1 : List.find? (fun p => decide (p.1 = k)) [kv] = none := by
        simp [List.find?, hk]
      rcases hf : kvs.reverse.find? (fun p => decide (p.1 = k)) with _ | q
      · rw [hf, h1, lookupKW_dictInsert, if_neg (fun h : k = kv.1 => hk h.symm)]
        simp
      · simp [hf]

/-- Last-wins: looking up a key in a dict built from a pair list finds the
value of the last pair carrying that key. -/
theorem lookupKW_dictOfPairs (kvs : List (String × α)) (k : String) :
    lookupKW (dictOfPairs kvs) k =
      (kvs.reverse.find? (fun p => p.1 = k)).map (fun p => p.2) := by
  rw [dictOfPairs, lookupKW_foldl_dictInsert]
  simp [lookupKW]

end DictLemmas

/-! ## Argument-builder lemmas -/

theorem kwTokens_append (k1 k2 : List (String × PyVal)) :
    kwTokens (k1 ++ k2) = kwTokens k1 ++ kwTokens k2 := by
  induction k1 with
  | nil => rfl
  | cons p k1 ih =>
    rcases p with ⟨k, v⟩
    cases v <;> simp [kwTokens, ih]

theorem kwTokens_cons_of_ne_none (k : String) (v : PyVal) (rest : List (String × PyVal))
    (h : v ≠ .vNone) :
    kwTokens ((k, v) :: rest) = flagToken k :: safe_cli_string v :: kwTokens rest := by
  cases v with
  | vStr s => rfl
  | vInt n => rfl
  | vNone => exact absurd rfl h

/-! ## Claims -/

/-- C1 counterexample.  The claim says every retained positional value that
contains a space character is wrapped in single quotes and every one with no
space is passed through unchanged.  The source quotes only when
`len(s.split()) > 1`: the truthy value `"a "` contains a space yet is passed
through unchanged (its trailing space produces no second word), and
`"a\tb"` contains no space yet is quoted (the tab splits it in two). -/
theorem C1_counterexample :
    pyTruthy (.vStr "a ") = true ∧
    ' ' ∈ ("a ").toList ∧
    safe_cli_string (.vStr "a ") = "a " ∧
    "a " ≠ squote ++ "a " ++ squote ∧
    build_cli_args_safe [.vStr "a "] [] = ["a "] ∧
    ' ' ∉ ("a\tb").toList ∧
    safe_cli_string (.vStr "a\tb") = squote ++ "a\tb" ++ squote := by
  refine ⟨rfl, ?_, ?_, ?_, ?_, ?_, ?_⟩ <;> decide

/-- C1 (amended): for every positional argument passed to the argument
builder, falsy/absent values are dropped and truthy values are kept in
order, each rendered by `safe_cli_string` (numeric values already converted
to their string form by `pyStr`); a retained value is wrapped in single
quotes exactly when its string form has a whitespace character with a
non-whitespace character somewhere before it and somewhere after it (i.e.
it splits into more than one whitespace-delimited word), and otherwise it is
passed through unchanged. -/
theorem C1_positional_quoting :
    (∀ (pre post : List PyVal) (kw : List (String × PyVal)) (v : PyVal),
        pyTruthy v = false →
        build_cli_args_safe (pre ++ v :: post) kw = build_cli_args_safe (pre ++ post) kw) ∧
    (∀ (pre post : List PyVal) (kw : List (String × PyVal)) (v : PyVal),
        pyTruthy v = true →
        build_cli_args_safe (pre ++ v :: post) kw =
          posTokens pre ++ safe_cli_string v :: (posTokens post ++ kwTokens kw)) ∧
    (∀ v : PyVal, multiword (pyStr v).toList →
        safe_cli_string v = squote ++ pyStr v ++ squote) ∧
    (∀ v : PyVal, ¬ multiword (pyStr v).toList → safe_cli_string v = pyStr v) := by
  refine ⟨?_, ?_, safe_cli_string_of_multiword, safe_cli_string_of_not_multiword⟩
  · intro pre post kw v hv
    simp [build_cli_args_safe, posTokens, List.filter_append, List.filter_cons, hv]
  · intro pre post kw v hv
    simp [build_cli_args_safe, posTokens, List.filter_append, List.filter_cons, hv]

/-- Witness for C1 (amended) at concrete inputs: a falsy `None` positional
is dropped, a two-word string is quoted, a single-word string is not. -/
theorem C1_positional_quoting_witness :
    build_cli_args_safe [.vStr "tx", .vNone] [] = build_cli_args_safe [.vStr "tx"] [] ∧
    safe_cli_string (.vStr "a b") = squote ++ "a b" ++ squote ∧
    safe_cli_string (.vStr "ab") = "ab" := by
  refine ⟨?_, ?_, ?_⟩
  · exact C1_positional_quoting.1 [.vStr "tx"] [] [] .vNone rfl
  · exact C1_positional_quoting.2.2.1 (.vStr "a b")
      ⟨['a'], ' ', ['b'], by decide, by decide, ⟨'a', by decide, by decide⟩,
        ⟨'b', by decide, by decide⟩⟩
  · exact C1_positional_quoting.2.2.2 (.vStr "ab")
      (fun hm => absurd ((one_lt_pyWords_len _).mpr hm) (by decide))

/-- C4: a keyword argument with value `None` contributes no tokens at all; a
keyword argument with any other value contributes exactly two consecutive
tokens — `--` prefixed to the name with leading/trailing underscores
stripped and inner underscores replaced by hyphens, followed by the
safe-quoted value; and the built sequence is always all positional tokens
(in caller order) followed by all flag tokens (in caller order). -/
theorem C4_kwarg_tokens :
    (∀ (args : List PyVal) (pre post : List (String × PyVal)) (k : String),
        build_cli_args_safe args (pre ++ (k, .vNone) :: post) =
          build_cli_args_safe args (pre ++ post)) ∧
    (∀ (args : List PyVal) (pre post : List (String × PyVal)) (k : String) (v : PyVal),
        v ≠ .vNone →
        build_cli_args_safe args (pre ++ (k, v) :: post) =
          build_cli_args_safe args pre ++
            ("--" ++ String.mk ((pyStrip k.toList '_').map (fun ch => if ch = '_' then '-' else ch))) ::
              safe_cli_string v :: kwTokens post) ∧
    (∀ (args : List PyVal) (kw : List (String × PyVal)),
        build_cli_args_safe args kw = posTokens args ++ kwTokens kw) := by
  refine ⟨?_, ?_, fun args kw => rfl⟩
  · intro args pre post k
    simp [build_cli_args_safe, kwTokens_append, kwTokens]
  · intro args pre post k v hv
    simp [build_cli_args_safe, kwTokens_append, kwTokens_cons_of_ne_none k v post hv,
      flagToken]

/-- Witness for C4 at concrete inputs: a `None`-valued option vanishes, a
present option emits its flag/value token pair after the positionals. -/
theorem C4_kwarg_tokens_witness :
    build_cli_args_safe [.vStr "tx"] [("gas", .vNone)] = ["tx"] ∧
    build_cli_args_safe [.vStr "tx"] [("chain_id", .vStr "c1")] = ["tx", "--chain-id", "c1"] := by
  constructor
  · exact (C4_kwarg_tokens.1 [.vStr "tx"] [] [] "gas").trans (by decide)
  · exact (C4_kwarg_tokens.2.1 [.vStr "tx"] [] [] "chain_id" (.vStr "c1")
      (by simp)).trans (by decide)

/-- C5: for every execution of the process executor, a nonzero exit code
without the ignore-error opt-out fails with an error whose message contains
both the captured output and the original command line; with the opt-out, or
with exit code zero, the captured output is returned. -/
theorem C5_interact (cmd : String) (res : ExecResult) :
    (res.returncode = 0 → ∀ ig : Bool, interact cmd ig res = .ok res.stdout) ∧
    (interact cmd true res = .ok res.stdout) ∧
    (res.returncode ≠ 0 → ∃ msg, interact cmd false res = .error msg ∧
        (∃ p q, msg = p ++ res.stdout ++ q) ∧ (∃ p q, msg = p ++ cmd ++ q)) := by
  refine ⟨?_, ?_, ?_⟩
  · intro h ig
    simp [interact, h]
  · simp [interact]
  · intro h
    refine ⟨res.stdout ++ " (" ++ cmd ++ ")", ?_, ⟨"", " (" ++ cmd ++ ")", ?_⟩,
      ⟨res.stdout ++ " (", ")", ?_⟩⟩
    · simp [interact, h]
    · simp [String.append_assoc]
    · simp [String.append_assoc]

/-- Witness for C5 at concrete inputs: a failing command without the opt-out
surfaces output and command line, with the opt-out (or on success) the
output is returned. -/
theorem C5_interact_witness :
    interact "chain-maind status" true ⟨"boom", 1⟩ = .ok "boom" ∧
    interact "chain-maind status" false ⟨"fine", 0⟩ = .ok "fine" ∧
    ∃ msg, interact "chain-maind status" false ⟨"boom", 1⟩ = .error msg ∧
      (∃ p q, msg = p ++ "boom" ++ q) ∧ (∃ p q, msg = p ++ "chain-maind status" ++ q) :=
  ⟨(C5_interact "chain-maind status" ⟨"boom", 1⟩).2.1,
   (C5_interact "chain-maind status" ⟨"fine", 0⟩).1 rfl false,
   (C5_interact "chain-maind status" ⟨"boom", 1⟩).2.2 (by decide)⟩

/-! Helper lemmas for the `Command.__call__` defaulting chain, whose later
steps are conditional on the subcommand. -/

theorem lookupKW_ite_setdefault_preserve {α : Type} {p : Prop} [Decidable p]
    (d : List (String × α)) (k k2 : String) (v v2 : α)
    (h : lookupKW d k = some v) :
    lookupKW (if p then setdefault d k2 v2 else d) k = some v := by
  by_cases hp : p
  · rw [if_pos hp]; exact lookupKW_setdefault_preserve d k k2 v v2 h
  · rw [if_neg hp]; exact h

theorem lookupKW_ite_setdefault_ne {α : Type} {p : Prop} [Decidable p]
    (d : List (String × α)) (k k2 : String) (v2 : α) (h : k ≠ k2) :
    lookupKW (if p then setdefault d k2 v2 else d) k = lookupKW d k := by
  by_cases hp : p
  · rw [if_pos hp]; exact lookupKW_setdefault_ne d k k2 v2 h
  · rw [if_neg hp]

theorem hasKey_ite_setdefault_ne {α : Type} {p : Prop} [Decidable p]
    (d : List (String × α)) (k k2 : String) (v2 : α) (h : k ≠ k2) :
    hasKey (if p then setdefault d k2 v2 else d) k = hasKey d k := by
  by_cases hp : p
  · rw [if_pos hp]; exact hasKey_setdefault_ne d k k2 v2 h
  · rw [if_neg hp]

/-- C2: the driver's defaulting — `home` for every subcommand; `node` for
`tx`, `status` and `query`; `chain_id` additionally for `tx`;
`keyring_backend = test` for `tx` and `keys`; `output = json` for `query`;
and an option the caller supplies is never overwritten. -/
theorem C2_call_defaults (c : Command) (cmd : String) (kw : List (String × PyVal)) :
    (hasKey kw "home" = false →
        lookupKW (c.call_kwargs cmd kw) "home" = some (.vStr c.home)) ∧
    ((cmd = "tx" ∨ cmd = "status" ∨ cmd = "query") → hasKey kw "node" = false →
        lookupKW (c.call_kwargs cmd kw) "node" = some (.vStr c.node)) ∧
    (cmd = "tx" → hasKey kw "chain_id" = false →
        lookupKW (c.call_kwargs cmd kw) "chain_id" = some (.vStr c.chain_id)) ∧
    ((cmd = "tx" ∨ cmd = "keys") → hasKey kw "keyring_backend" = false →
        lookupKW (c.call_kwargs cmd kw) "keyring_backend" = some (.vStr "test")) ∧
    (cmd = "query" → hasKey kw "output" = false →
        lookupKW (c.call_kwargs cmd kw) "output" = some (.vStr "json")) ∧
    (∀ k v, lookupKW kw k = some v → lookupKW (c.call_kwargs cmd kw) k = some v) := by
  refine ⟨?_, ?_, ?_, ?_, ?_, ?_⟩
  · intro hhome
    rw [Command.call_kwargs]
    exact lookupKW_ite_setdefault_preserve _ _ _ _ _
      (lookupKW_ite_setdefault_preserve _ _ _ _ _
        (lookupKW_ite_setdefault_preserve _ _ _ _ _
          (lookupKW_ite_setdefault_preserve _ _ _ _ _
            (lookupKW_setdefault_default _ _ _ hhome))))
  · intro hc hnode
    rw [Command.call_kwargs]
    have hcond : (cmd = "tx" || cmd = "status" || cmd = "query") = true := by
      rcases hc with rfl | rfl | rfl <;> decide
    rw [lookupKW_ite_setdefault_ne _ _ _ _ (by decide),
      lookupKW_ite_setdefault_ne _ _ _ _ (by decide),
      lookupKW_ite_setdefault_ne _ _ _ _ (by decide),
      if_pos hcond]
    exact lookupKW_setdefault_default _ _ _
      (by rw [hasKey_setdefault_ne _ _ _ _ (by decide)]; exact hnode)
  · rintro rfl hchain
    rw [Command.call_kwargs]
    rw [lookupKW_ite_setdefault_ne _ _ _ _ (by decide),
      lookupKW_ite_setdefault_ne _ _ _ _ (by decide),
      if_pos (rfl : ("tx" : String) = "tx")]
    exact lookupKW_setdefault_default _ _ _
      (by rw [hasKey_ite_setdefault_ne _ _ _ _ (by decide),
        hasKey_setdefault_ne _ _ _ _ (by decide)]; exact hchain)
  · intro hc hkeyring
    rw [Command.call_kwargs]
    have hcond : (cmd = "tx" || cmd = "keys") = true := by
      rcases hc with rfl | rfl <;> decide
    rw [lookupKW_ite_setdefault_ne _ _ _ _ (by decide), if_pos hcond]
    exact lookupKW_setdefault_default _ _ _
      (by rw [hasKey_ite_setdefault_ne _ _ _ _ (by decide),
        hasKey_ite_setdefault_ne _ _ _ _ (by decide),
        hasKey_setdefault_ne _ _ _ _ (by decide)]; exact hkeyring)
  · rintro rfl houtput
    rw [Command.call_kwargs]
    rw [if_pos (rfl : ("query" : String) = "query")]
    exact lookupKW_setdefault_default _ _ _
      (by rw [hasKey_ite_setdefault_ne _ _ _ _ (by decide),
        hasKey_ite_setdefault_ne _ _ _ _ (by decide),
        hasKey_ite_setdefault_ne _ _ _ _ (by decide),
        hasKey_setdefault_ne _ _ _ _ (by decide)]; exact houtput)
  · intro k v hv
    rw [Command.call_kwargs]
    exact lookupKW_ite_setdefault_preserve _ _ _ _ _
      (lookupKW_ite_setdefault_preserve _ _ _ _ _
        (lookupKW_ite_setdefault_preserve _ _ _ _ _
          (lookupKW_ite_setdefault_preserve _ _ _ _ _
            (lookupKW_setdefault_preserve _ _ _ _ _ hv))))

/-! Helper lemmas about `List.mapM` over `Option`, used to read off the
shape of the decoded event list. -/

theorem mapM_option_length {α β : Type} (f : α → Option β) (l : List α) (l2 : List β)
    (h : l.mapM f = some l2) : l2.length = l.length := by
  induction l generalizing l2 with
  | nil => simp only [List.mapM_nil, pure, Option.some.injEq] at h; simp [← h]
  | cons a l ih =>
    rw [List.mapM_cons] at h
    rcases ha : f a with _ | b <;> rw [ha] at h
    · simp [bind] at h
    · rcases hl : l.mapM f with _ | bs <;> rw [hl] at h
      · simp [bind] at h
      · simp at h
        rw [← h]
        simp [ih bs hl]

theorem mapM_option_get? {α β : Type} (f : α → Option β) (l : List α) (l2 : List β)
    (h : l.mapM f = some l2) (i : Nat) : l2.get? i = (l.get? i).bind f := by
  induction l generalizing l2 i with
  | nil =>
    simp only [List.mapM_nil, pure, Option.some.injEq] at h
    simp [← h]
  | cons a l ih =>
    rw [List.mapM_cons] at h
    rcases ha : f a with _ | b <;> rw [ha] at h
    · simp [bind] at h
    · rcases hl : l.mapM f with _ | bs <;> rw [hl] at h
      · simp [bind] at h
      · simp at h
        rw [← h]
        cases i with
        | zero => simp [ha]
        | succ i => simpa using ih bs hl i

/-- C3: the decoder's `code` is the result's `code` field, `0` when absent;
and for a code-0 result whose `raw_log` parses to a JSON array whose first
message carries an `events` array, the decoded events are one flat mapping
per event in log order (a message with two events yields exactly two
mappings), and a duplicate attribute key within one event resolves to the
value of its last occurrence. -/
theorem C3_response_decoding :
    (∀ (fields : List (String × Json)) (j : Json),
        lookupKW fields "code" = some j → Response.code ⟨fields⟩ = j) ∧
    (∀ fields : List (String × Json),
        lookupKW fields "code" = none → Response.code ⟨fields⟩ = .num 0) ∧
    (∀ (jloads : String → Option Json) (fields : List (String × Json)) (s : String)
        (mfields : List (String × Json)) (rest : List Json) (evs : List Json),
        Response.code ⟨fields⟩ = .num 0 →
        lookupKW fields "raw_log" = some (.str s) →
        jloads s = some (.arr (Json.obj mfields :: rest)) →
        lookupKW mfields "events" = some (.arr evs) →
        Response.events jloads ⟨fields⟩ = evs.mapM eventDict) ∧
    (∀ (evs : List Json) (dicts : List (List (String × String))),
        evs.mapM eventDict = some dicts →
        dicts.length = evs.length ∧ ∀ i, dicts.get? i = (evs.get? i).bind eventDict) ∧
    (∀ (ev : Json) (attrs : List Json) (kvs : List (String × String)),
        ev.field? "attributes" = some (.arr attrs) →
        attrs.mapM attrKV = some kvs →
        eventDict ev = some (dictOfPairs kvs) ∧
        ∀ k, lookupKW (dictOfPairs kvs) k =
          (kvs.reverse.find? (fun p => p.1 = k)).map (fun p => p.2)) := by
  refine ⟨?_, ?_, ?_, ?_, ?_⟩
  · intro fields j h
    simp [Response.code, Response.get?, h]
  · intro fields h
    simp [Response.code, Response.get?, h]
  · intro jloads fields s mfields rest evs _ hraw hload hevs
    simp [Response.events, parse_events, Response.get?, hraw, Json.asStr?, hload,
      parseEventsLog, Json.index?, Json.field?, Json.asObj?, hevs, Json.asArr?]
  · intro evs dicts h
    exact ⟨mapM_option_length eventDict evs dicts h, mapM_option_get? eventDict evs dicts h⟩
  · intro ev attrs kvs hattrs hkvs
    constructor
    · simp only [eventDict, hattrs, Json.asArr?, Option.some_bind, bind, hkvs, pure]
    · intro k
      exact lookupKW_dictOfPairs kvs k

/-- A concrete attribute object for the C3 witness. -/
def c3attr (k v : String) : Json :=
  .obj [("key", .str k), ("value", .str v)]

/-- A concrete event with a duplicate attribute key for the C3 witness. -/
def c3ev1 : Json :=
  .obj [("attributes", .arr [c3attr "k" "v1", c3attr "x" "y", c3attr "k" "v2"])]

/-- A concrete attribute-free event for the C3 witness. -/
def c3ev2 : Json :=
  .obj [("attributes", .arr [])]

/-- A concrete parsed `raw_log` for the C3 witness: one message with two
events. -/
def c3log : Json :=
  .arr [.obj [("events", .arr [c3ev1, c3ev2])]]

/-- A concrete transaction-result object for the C3 witness. -/
def c3fields : List (String × Json) :=
  [("code", .num 0), ("raw_log", .str "LOG")]

/-- A concrete `json.loads` oracle for the C3 witness. -/
def c3jloads : String → Option Json :=
  fun s => if s = "LOG" then some c3log else none

/-- Witness for C3 at a concrete code-0 result: one message with two events
decodes to exactly two mappings in order, and the duplicate key `k` resolves
to its last value. -/
theorem C3_response_decoding_witness :
    Response.code ⟨c3fields⟩ = Json.num 0 ∧
    Response.events c3jloads ⟨c3fields⟩ = some [[("k", "v2"), ("x", "y")], []] ∧
    lookupKW (dictOfPairs [("k", "v1"), ("x", "y"), ("k", "v2")]) "k" = some "v2" := by
  refine ⟨?_, ?_, ?_⟩
  · exact C3_response_decoding.1 c3fields (Json.num 0) rfl
  · have h := C3_response_decoding.2.2.1 c3jloads c3fields "LOG"
      [("events", .arr [c3ev1, c3ev2])] [] [c3ev1, c3ev2]
      (C3_response_decoding.1 c3fields (Json.num 0) rfl) rfl rfl rfl
    exact h.trans rfl
  · have h := (C3_response_decoding.2.2.2.2 c3ev1
      [c3attr "k" "v1", c3attr "x" "y", c3attr "k" "v2"]
      [("k", "v1"), ("x", "y"), ("k", "v2")] rfl rfl).2 "k"
    exact h.trans rfl

/-- Witness for C2 at a concrete driver and invocation: a `tx` call with one
caller-supplied option receives `home`, `node`, `chain_id` and the test
keyring backend, and keeps the caller's option. -/
theorem C2_call_defaults_witness :
    lookupKW (Command.call_kwargs ⟨"b", "h", "n", "cid"⟩ "tx" [("gas", .vInt 5)]) "home" =
      some (.vStr "h") ∧
    lookupKW (Command.call_kwargs ⟨"b", "h", "n", "cid"⟩ "tx" [("gas", .vInt 5)]) "node" =
      some (.vStr "n") ∧
    lookupKW (Command.call_kwargs ⟨"b", "h", "n", "cid"⟩ "tx" [("gas", .vInt 5)]) "chain_id" =
      some (.vStr "cid") ∧
    lookupKW (Command.call_kwargs ⟨"b", "h", "n", "cid"⟩ "tx" [("gas", .vInt 5)]) "keyring_backend" =
      some (.vStr "test") ∧
    lookupKW (Command.call_kwargs ⟨"b", "h", "n", "cid"⟩ "tx" [("gas", .vInt 5)]) "gas" =
      some (.vInt 5) :=
  ⟨(C2_call_defaults ⟨"b", "h", "n", "cid"⟩ "tx" [("gas", .vInt 5)]).1 (by decide),
   (C2_call_defaults ⟨"b", "h", "n", "cid"⟩ "tx" [("gas", .vInt 5)]).2.1 (Or.inl rfl) (by decide),
   (C2_call_defaults ⟨"b", "h", "n", "cid"⟩ "tx" [("gas", .vInt 5)]).2.2.1 rfl (by decide),
   (C2_call_defaults ⟨"b", "h", "n", "cid"⟩ "tx" [("gas", .vInt 5)]).2.2.2.1 (Or.inl rfl) (by decide),
   (C2_call_defaults ⟨"b", "h", "n", "cid"⟩ "tx" [("gas", .vInt 5)]).2.2.2.2.2 "gas" (.vInt 5) (by decide)⟩

/-! Helper lemmas for the port-liveness loop. -/

theorem waitForPortLoop_ok_connect (port : Nat) (host : String) (connect : Nat → Bool)
    (dur : Nat → Int) (timeout : Int) :
    ∀ (fuel i : Nat) (elapsed t : Int),
      waitForPortLoop port host connect dur timeout i elapsed fuel = some (.ok t) →
      ∃ j, connect j = true := by
  intro fuel
  induction fuel with
  | zero => intro i elapsed t h; simp [waitForPortLoop] at h
  | succ fuel ih =>
    intro i elapsed t h
    rw [waitForPortLoop] at h
    by_cases hc : connect i = true
    · exact ⟨i, hc⟩
    · rw [if_neg hc] at h
      by_cases he : elapsed + dur i + 1 ≥ timeout
      · rw [if_pos he] at h
        simp at h
      · rw [if_neg he] at h
        exact ih (i + 1) (elapsed + dur i + 1) t h

theorem waitForPortLoop_error_shape (port : Nat) (host : String) (connect : Nat → Bool)
    (dur : Nat → Int) (timeout : Int) :
    ∀ (fuel i : Nat) (elapsed : Int) (m : String) (t : Int),
      waitForPortLoop port host connect dur timeout i elapsed fuel = some (.error (m, t)) →
      m = portTimeoutMsg port host ∧ timeout ≤ t := by
  intro fuel
  induction fuel with
  | zero => intro i elapsed m t h; simp [waitForPortLoop] at h
  | succ fuel ih =>
    intro i elapsed m t h
    rw [waitForPortLoop] at h
    by_cases hc : connect i = true
    · rw [if_pos hc] at h; simp at h
    · rw [if_neg hc] at h
      by_cases he : elapsed + dur i + 1 ≥ timeout
      · rw [if_pos he] at h
        simp only [Option.some.injEq, Except.error.injEq, Prod.mk.injEq] at h
        exact ⟨h.1.symm, h.2 ▸ he⟩
      · rw [if_neg he] at h
        exact ih (i + 1) (elapsed + dur i + 1) m t h

/-- C6: port-liveness polling (time in tenths of a second).  A port whose
connection attempts start succeeding at the 2-second mark, polled with a
5-second timeout, yields a normal return at the 2-second mark; a port that
never accepts, polled with a 1-second timeout, raises the timeout error
exactly at the 1-second mark, and the error message names the port and the
host.  In general a normal return implies some attempt connected, and a
raised timeout error always carries the port/host message at a clock at or
past the timeout. -/
theorem C6_wait_for_port :
    wait_for_port 26657 "127.0.0.1" (fun i => decide ((20 : Int) ≤ (i : Int))) (fun _ => 0) 50 60 =
      some (.ok 20) ∧
    wait_for_port 26657 "127.0.0.1" (fun _ => false) (fun _ => 0) 10 60 =
      some (.error (portTimeoutMsg 26657 "127.0.0.1", 10)) ∧
    (∃ p q, portTimeoutMsg 26657 "127.0.0.1" = p ++ "26657" ++ q) ∧
    (∃ p q, portTimeoutMsg 26657 "127.0.0.1" = p ++ "127.0.0.1" ++ q) ∧
    (∀ (port : Nat) (host : String) (connect : Nat → Bool) (dur : Nat → Int)
        (timeout : Int) (fuel : Nat) (t : Int),
        wait_for_port port host connect dur timeout fuel = some (.ok t) →
        ∃ j, connect j = true) ∧
    (∀ (port : Nat) (host : String) (connect : Nat → Bool) (dur : Nat → Int)
        (timeout : Int) (fuel : Nat) (m : String) (t : Int),
        wait_for_port port host connect dur timeout fuel = some (.error (m, t)) →
        m = portTimeoutMsg port host ∧ timeout ≤ t) := by
  refine ⟨rfl, rfl,
    ⟨"Waited too long for the port ",
      " on host 127.0.0.1 to start accepting connections.", by decide⟩,
    ⟨"Waited too long for the port 26657 on host ",
      " to start accepting connections.", by decide⟩, ?_, ?_⟩
  · intro port host connect dur timeout fuel t h
    exact waitForPortLoop_ok_connect port host connect dur timeout fuel 0 0 t h
  · intro port host connect dur timeout fuel m t h
    exact waitForPortLoop_error_shape port host connect dur timeout fuel 0 0 m t h

/-- Witness for C6: the general return/raise facts applied to the two
concrete scenarios of the claim. -/
theorem C6_wait_for_port_witness :
    (∃ j : Nat, decide ((20 : Int) ≤ (j : Int)) = true) ∧
    portTimeoutMsg 26657 "127.0.0.1" = portTimeoutMsg 26657 "127.0.0.1" ∧ (10 : Int) ≤ 10 :=
  ⟨C6_wait_for_port.2.2.2.2.1 26657 "127.0.0.1" (fun i => decide ((20 : Int) ≤ (i : Int)))
      (fun _ => 0) 50 60 20 C6_wait_for_port.1,
   C6_wait_for_port.2.2.2.2.2 26657 "127.0.0.1" (fun _ => false) (fun _ => 0) 10 60
      (portTimeoutMsg 26657 "127.0.0.1") 10 C6_wait_for_port.2.1⟩

/-! Helper lemmas for the unbounded waits. -/

theorem waitNewBlocksLoop_some_sound (heights : Nat → Int) (begin_height n : Int) :
    ∀ (fuel i j : Nat),
      waitNewBlocksLoop heights begin_height n i fuel = some j →
      n ≤ heights j - begin_height := by
  intro fuel
  induction fuel with
  | zero => intro i j h; simp [waitNewBlocksLoop] at h
  | succ fuel ih =>
    intro i j h
    rw [waitNewBlocksLoop] at h
    by_cases hc : heights i - begin_height ≥ n
    · rw [if_pos hc] at h
      simp only [Option.some.injEq] at h
      exact h ▸ hc
    · rw [if_neg hc] at h
      exact ih (i + 1) j h

theorem waitNewBlocksLoop_none_of_never (heights : Nat → Int) (begin_height n : Int) :
    ∀ (fuel i : Nat), (∀ j, i ≤ j → heights j - begin_height < n) →
      waitNewBlocksLoop heights begin_height n i fuel = none := by
  intro fuel
  induction fuel with
  | zero => intro i _; rfl
  | succ fuel ih =>
    intro i hlt
    rw [waitNewBlocksLoop, if_neg (by simpa using hlt i le_rfl)]
    exact ih (i + 1) (fun j hj => hlt j (Nat.le_of_succ_le hj))

theorem waitBlockTimeLoop_some_sound (times : Nat → Int) (t : Int) :
    ∀ (fuel i j : Nat),
      waitBlockTimeLoop times t i fuel = some j → t ≤ times j := by
  intro fuel
  induction fuel with
  | zero => intro i j h; simp [waitBlockTimeLoop] at h
  | succ fuel ih =>
    intro i j h
    rw [waitBlockTimeLoop] at h
    by_cases hc : times i ≥ t
    · rw [if_pos hc] at h
      simp only [Option.some.injEq] at h
      exact h ▸ hc
    · rw [if_neg hc] at h
      exact ih (i + 1) j h

theorem waitBlockTimeLoop_none_of_never (times : Nat → Int) (t : Int) :
    ∀ (fuel i : Nat), (∀ j, times j < t) →
      waitBlockTimeLoop times t i fuel = none := by
  intro fuel
  induction fuel with
  | zero => intro i _; rfl
  | succ fuel ih =>
    intro i hlt
    rw [waitBlockTimeLoop, if_neg (by simpa using hlt i)]
    exact ih (i + 1) hlt

/-- C7: the new-blocks wait and the block-time wait have no timeout branch
(their loop result type has no error case): a wait that returns did so at a
poll satisfying its condition — height advanced by at least `n` over the
height at call start, respectively block time at least `t` — and when the
condition never holds, the loop is still running after any number of polls
(`none` for every fuel). -/
theorem C7_unbounded_waits :
    (∀ (c : Command) (heights : Nat → Int) (n : Int) (fuel j : Nat),
        (c.wait_for_new_blocks heights n fuel).1 = some j →
        n ≤ heights j - heights 0) ∧
    (∀ (c : Command) (heights : Nat → Int) (n : Int) (fuel : Nat),
        (∀ i, 1 ≤ i → heights i - heights 0 < n) →
        (c.wait_for_new_blocks heights n fuel).1 = none) ∧
    (∀ (c : Command) (times : Nat → Int) (t : Int) (fuel j : Nat),
        (c.wait_for_block_time times t fuel).1 = some j → t ≤ times j) ∧
    (∀ (c : Command) (times : Nat → Int) (t : Int) (fuel : Nat),
        (∀ i, times i < t) → (c.wait_for_block_time times t fuel).1 = none) := by
  refine ⟨?_, ?_, ?_, ?_⟩
  · intro c heights n fuel j h
    exact waitNewBlocksLoop_some_sound heights (heights 0) n fuel 1 j h
  · intro c heights n fuel hlt
    exact waitNewBlocksLoop_none_of_never heights (heights 0) n fuel 1 hlt
  · intro c times t fuel j h
    exact waitBlockTimeLoop_some_sound times t fuel 0 j h
  · intro c times t fuel hlt
    exact waitBlockTimeLoop_none_of_never times t fuel 0 hlt

/-- Witness for C7 at concrete oracles: a chain advancing one block per poll
satisfies the new-blocks wait at poll 1; a stalled chain keeps both waits
looping for any fuel tried. -/
theorem C7_unbounded_waits_witness :
    (1 : Int) ≤ (1 : Int) - 0 ∧
    (Command.wait_for_new_blocks ⟨"b", "h", "n", "cid"⟩ (fun _ => 0) 1 7).1 = none ∧
    (5 : Int) ≤ (5 : Int) ∧
    (Command.wait_for_block_time ⟨"b", "h", "n", "cid"⟩ (fun _ => 0) 1 7).1 = none := by
  refine ⟨?_, ?_, ?_, ?_⟩
  · have h := C7_unbounded_waits.1 ⟨"b", "h", "n", "cid"⟩ (fun i => (i : Int)) 1 5 1 rfl
    simpa using h
  · exact C7_unbounded_waits.2.1 ⟨"b", "h", "n", "cid"⟩ (fun _ => 0) 1 7
      (fun i _ => by norm_num)
  · have h := C7_unbounded_waits.2.2.1 ⟨"b", "h", "n", "cid"⟩ (fun _ => (5 : Int)) 5 3 0 rfl
    simpa using h
  · exact C7_unbounded_waits.2.2.2 ⟨"b", "h", "n", "cid"⟩ (fun _ => 0) 1 7 (fun i => by norm_num)

/-- C8: every operation of a driver instance returns the driver exactly as
constructed — none of the methods assigns any of the identity fields
(binary path, home directory, node address, chain id), so the threaded
`Command` value is unchanged. -/
theorem C8_driver_identity_immutable (c : Command) (env : Env) (cmd : String)
    (args : List PyVal) (stdin : Option String) (kwargs : List (String × PyVal))
    (heights times : Nat → Int) (n t code_id gas amount : Int) (fuel : Nat)
    (name addr path from_ contract msg initMsg label : String)
    (admin : Option String) :
    (c.call env cmd args stdin kwargs).2 = c ∧
    (c.status env).2 = c ∧
    (c.wait_for_block heights n fuel).2 = c ∧
    (c.wait_for_new_blocks heights n fuel).2 = c ∧
    (c.wait_for_block_time times t fuel).2 = c ∧
    (c.address env name).2 = c ∧
    (c.balances env addr).2 = c ∧
    (c.store env path from_ gas).2 = c ∧
    (c.instantiate env code_id initMsg from_ label admin).2 = c ∧
    (c.construct env path initMsg from_ label admin).2 = c ∧
    (c.execute env contract msg from_ amount).2 = c ∧
    (c.query env contract msg).2 = c :=
  ⟨rfl, rfl, rfl, rfl, rfl, rfl, rfl, rfl, rfl, rfl, rfl, rfl⟩

/-- C9: `Command.store` ignores its `gas` parameter — the whole operation is
unchanged under any replacement of the parameter's value — and the CLI
tokens it emits always carry the literal flag pair `--gas 2000000`. -/
theorem C9_store_gas_literal (c : Command) (env : Env) (path from_ : String) (g g2 : Int) :
    Command.store c env path from_ g = Command.store c env path from_ g2 ∧
    Command.storeTokens c path from_ =
      posTokens [.vStr "tx", .vStr "wasm", .vStr "store", .vStr path, .vStr "-y"] ++
        ["--from", safe_cli_string (.vStr from_), "--gas", "2000000",
         "--home", safe_cli_string (.vStr c.home), "--node", safe_cli_string (.vStr c.node),
         "--chain-id", safe_cli_string (.vStr c.chain_id), "--keyring-backend", "test"] :=
  ⟨rfl, rfl⟩

/-- C10: `Command.execute` always emits an `--amount` flag whose value is
the amount's decimal form suffixed with the fixed denomination `ucosm`; an
amount of `0` yields `0ucosm`, and since the decimal form contains no
whitespace the value token is exactly the suffixed string. -/
theorem C10_execute_amount (c : Command) (contract msg from_ : String) (amount : Int) :
    Command.executeTokens c contract msg from_ amount =
      posTokens [.vStr "tx", .vStr "wasm", .vStr "execute", .vStr contract, .vStr msg,
          .vStr "-y"] ++
        ["--from", safe_cli_string (.vStr from_),
         "--amount", safe_cli_string (.vStr (toString amount ++ "ucosm")),
         "--home", safe_cli_string (.vStr c.home), "--node", safe_cli_string (.vStr c.node),
         "--chain-id", safe_cli_string (.vStr c.chain_id), "--keyring-backend", "test"] ∧
    toString (0 : Int) ++ "ucosm" = "0ucosm" ∧
    (∀ a : Int, (∀ ch ∈ (toString a).toList, pyIsSpace ch = false) →
        safe_cli_string (.vStr (toString a ++ "ucosm")) = toString a ++ "ucosm") := by
  refine ⟨rfl, by decide, ?_⟩
  intro a ha
  apply safe_cli_string_of_not_multiword
  rintro ⟨l1, w, l2, heq, hw, -, -⟩
  have hwmem : w ∈ (pyStr (.vStr (toString a ++ "ucosm"))).toList := by
    rw [heq]; simp
  have hsplit : (pyStr (.vStr (toString a ++ "ucosm"))).toList =
      (toString a).toList ++ ("ucosm").toList := by
    simp [pyStr, String.toList, String.data_append]
  rw [hsplit] at hwmem
  rcases List.mem_append.mp hwmem with h1 | h2
  · exact absurd hw (by simp [ha w h1])
  · have hu : ∀ ch ∈ ("ucosm").toList, pyIsSpace ch = false := by decide
    exact absurd hw (by simp [hu w h2])

/-- Witness for C10: the no-whitespace fact instantiated at amount `0`. -/
theorem C10_execute_amount_witness :
    safe_cli_string (.vStr (toString (0 : Int) ++ "ucosm")) = toString (0 : Int) ++ "ucosm" :=
  (C10_execute_amount ⟨"b", "h", "n", "cid"⟩ "contract" "msg" "alice" 0).2.2 0 (by decide)

end CosmwasmTests
